import Mathlib

namespace MlFace

/-!
A shallow embedding of the MCP client core of the mlFace repository
(`src-tauri/src/mcp/{types,transport,client,server}.rs`), together with
theorems settling the specification claims about it.

The embedding follows the Rust source: pure computations become Lean
functions; the stateful async parts (the stdio reader task, the client's
pending-request map, the manager's registry) become explicit state-passing
functions or event-trace semantics.  Machine integers are modelled as `Nat`
with an explicit `% 2^64` where the source uses a wrapping `u64`.
-/

/-! ## JSON values and JSON-RPC envelopes (`types.rs`) -/

/-- A JSON value, as used for `serde_json::Value`.  Numbers are modelled as
integers (request/response ids are integers on the wire; fractional numbers
play no role in the claims). -/
inductive JsonValue where
  | null : JsonValue
  | bool (b : Bool) : JsonValue
  | num (n : Int) : JsonValue
  | str (s : String) : JsonValue
  | arr (elems : List JsonValue) : JsonValue
  | obj (fields : List (String × JsonValue)) : JsonValue
  deriving Repr

/-- Rust `JsonRpcError` from `types.rs`. -/
structure JsonRpcError where
  code : Int
  message : String
  data : Option JsonValue
  deriving Repr

/-- Rust `JsonRpcRequest` from `types.rs`. -/
structure JsonRpcRequest where
  jsonrpc : String
  id : JsonValue
  method : String
  params : Option JsonValue
  deriving Repr

/-- Rust `JsonRpcResponse` from `types.rs`. -/
structure JsonRpcResponse where
  jsonrpc : String
  id : JsonValue
  result : Option JsonValue
  error : Option JsonRpcError
  deriving Repr

/-- Rust `JsonRpcNotification` from `types.rs`. -/
structure JsonRpcNotification where
  jsonrpc : String
  method : String
  params : Option JsonValue
  deriving Repr

/-- Rust `JsonRpcMessage` from `types.rs`: the untagged union of the three
JSON-RPC envelope shapes. -/
inductive JsonRpcMessage where
  | Request (r : JsonRpcRequest) : JsonRpcMessage
  | Response (r : JsonRpcResponse) : JsonRpcMessage
  | Notification (n : JsonRpcNotification) : JsonRpcMessage
  deriving Repr

/-- Rust `McpError` from `types.rs`. -/
inductive McpError where
  | ParseError (s : String)
  | InvalidRequest (s : String)
  | MethodNotFound (s : String)
  | InvalidParams (s : String)
  | InternalError (s : String)
  | TransportError (s : String)
  | ProtocolError (s : String)
  | TimeoutError
  | ConnectionClosed
  deriving Repr, DecidableEq

/-- Rust `McpError::to_code` from `types.rs`. -/
def McpError.toCode : McpError → Int
  | .ParseError _ => -32700
  | .InvalidRequest _ => -32600
  | .MethodNotFound _ => -32601
  | .InvalidParams _ => -32602
  | .InternalError _ => -32603
  | .TransportError _ => -32000
  | .ProtocolError _ => -32001
  | .TimeoutError => -32002
  | .ConnectionClosed => -32003

/-! ## Association-list model of `HashMap`

`client.rs` keeps `pending_requests : HashMap<String, Sender>` and
`server.rs` keeps `servers : HashMap<String, McpServerConfig>`.  Both are
modelled as association lists with the `HashMap` operations:
`insert` overwrites an existing entry in place (appending when the key is
new), `remove` deletes the entry of a key, `get`/lookup finds it. -/

/-- Lookup of a key (`HashMap::get`). -/
def lookupKey [DecidableEq κ] (k : κ) : List (κ × α) → Option α
  | [] => none
  | (k', v) :: rest => if k' = k then some v else lookupKey k rest

/-- Key membership (`HashMap::contains_key`). -/
def containsKey [DecidableEq κ] (k : κ) : List (κ × α) → Bool
  | [] => false
  | (k', _) :: rest => k' = k || containsKey k rest

/-- Rust `HashMap::remove`: delete the entry of key `k`. -/
def removeKey [DecidableEq κ] (k : κ) : List (κ × α) → List (κ × α)
  | [] => []
  | (k', v') :: rest =>
    if k' = k then removeKey k rest else (k', v') :: removeKey k rest

/-- Rust `HashMap::insert`: overwrite the entry of key `k` in place, or append a
new entry when `k` is absent. -/
def insertKey [DecidableEq κ] (k : κ) (v : α) : List (κ × α) → List (κ × α)
  | [] => [(k, v)]
  | (k', v') :: rest =>
    if k' = k then (k, v) :: rest else (k', v') :: insertKey k v rest

/-! ## SSE POST endpoint (`transport.rs`, `SseTransport::send`) -/

/-- Boolean prefix test on character lists. -/
def isPrefixOfB : List Char → List Char → Bool
  | [], _ => true
  | _ :: _, [] => false
  | a :: as, b :: bs => a == b && isPrefixOfB as bs

/-- Rust `str::ends_with` on character lists. -/
def endsWithB (pat s : List Char) : Bool :=
  isPrefixOfB pat.reverse s.reverse

/-- Fuel-indexed core of Rust `str::replace` for a non-empty pattern: scan
left to right; wherever `pat` matches, emit `rep` and skip past the match;
otherwise keep one character and continue.  With `fuel ≥` the length of the
input this computes exactly `String::replace`. -/
def replaceCore (pat rep : List Char) : Nat → List Char → List Char
  | _, [] => []
  | 0, s => s
  | fuel + 1, c :: rest =>
    if isPrefixOfB pat (c :: rest) then
      rep ++ replaceCore pat rep fuel (List.drop (pat.length - 1) rest)
    else
      c :: replaceCore pat rep fuel rest

/-- Rust `str::trim_end_matches('/')` on character lists. -/
def trimEndSlashes (s : List Char) : List Char :=
  (s.reverse.dropWhile (fun c => c == '/')).reverse

def sseChars : List Char := ['/', 's', 's', 'e']

def messagesChars : List Char := ['/', 'm', 'e', 's', 's', 'a', 'g', 'e', 's']

/-- The POST endpoint computed by `SseTransport::send` (transport.rs lines
332–338): `if base_url.ends_with("/sse") { base_url.replace("/sse",
"/messages") } else { format!("{}/messages", base_url.trim_end_matches('/'))
}`. -/
def ssePostUrlData (base : List Char) : List Char :=
  if endsWithB sseChars base then
    replaceCore sseChars messagesChars base.length base
  else
    trimEndSlashes base ++ messagesChars

/-- String-level wrapper of `ssePostUrlData`. -/
def ssePostUrl (base : String) : String :=
  ⟨ssePostUrlData base.data⟩

/-- The POST endpoint as the claim's words describe it: when the base URL
ends with `"/sse"`, only that suffix occurrence is replaced by
`"/messages"`; otherwise trailing slashes are trimmed and `"/messages"`
appended. -/
def claimedPostUrlData (base : List Char) : List Char :=
  if endsWithB sseChars base then
    List.take (base.length - 4) base ++ messagesChars
  else
    trimEndSlashes base ++ messagesChars

/-- String-level wrapper of `claimedPostUrlData`. -/
def claimedPostUrl (base : String) : String :=
  ⟨claimedPostUrlData base.data⟩

/-! ## Client `close` (`client.rs`, `McpClient::close`, lines 141–150)

The three steps of `close` are effectful; their outcomes are supplied as an
oracle.  The source is

```
self.send_request::<Value>("shutdown", None).await?;
self.send_notification("exit", None).await?;
self.transport.close().await
```

so each `?` propagates an error and returns early from `close`. -/

/-- The outcomes the environment supplies to one `close()` invocation:
what the `shutdown` request, the `exit` notification, and
`transport.close()` would each produce when reached. -/
structure CloseOutcomes where
  shutdownOutcome : Except McpError JsonValue
  exitOutcome : Except McpError Unit
  transportCloseOutcome : Except McpError Unit
  deriving Repr

/-- What one `close()` invocation did: which steps were reached and the
returned value. -/
structure CloseTrace where
  sentShutdown : Bool
  sentExit : Bool
  closedTransport : Bool
  result : Except McpError Unit
  deriving Repr

/-- Rust `McpClient::close` (client.rs lines 141–150): each step's error is
propagated by `?`, aborting the remaining steps. -/
def clientClose (eff : CloseOutcomes) : CloseTrace :=
  match eff.shutdownOutcome with
  | .error e =>
    { sentShutdown := true, sentExit := false, closedTransport := false,
      result := .error e }
  | .ok _ =>
    match eff.exitOutcome with
    | .error e =>
      { sentShutdown := true, sentExit := true, closedTransport := false,
        result := .error e }
    | .ok _ =>
      { sentShutdown := true, sentExit := true, closedTransport := true,
        result := eff.transportCloseOutcome }

/-! ## Child process spawning (`transport.rs` `StdioTransport::new`,
`server.rs` `McpServerManager::start_server` and `get_client`) -/

/-- Rust `McpServerConfig` from `server.rs`.  The `process` handle is modelled as
an optional process id. -/
structure McpServerConfig where
  name : String
  command : String
  args : List String
  env : List (String × String)
  process : Option Nat
  deriving Repr, DecidableEq

/-- Rust `McpServerConfig::clone` (server.rs lines 24–34): everything is cloned
except the process handle, which becomes `None`. -/
def cloneConfig (c : McpServerConfig) : McpServerConfig :=
  { name := c.name, command := c.command, args := c.args, env := c.env,
    process := none }

/-- A record of one process spawn: the command, its arguments, and the
environment entries layered over the inherited parent environment
(`Command::env` calls). -/
structure SpawnRecord where
  command : String
  args : List String
  envOverrides : List (String × String)
  deriving Repr, DecidableEq

/-- The spawn performed by `StdioTransport::new` (transport.rs lines 39–52):
`TokioCommand::new(command)` with `.args(&args)` and piped stdio.  No
`.env` call is made, so no environment overrides are applied. -/
def stdioTransportSpawn (command : String) (args : List String) : SpawnRecord :=
  { command := command, args := args, envOverrides := [] }

/-- The spawn performed by `McpServerManager::start_server` (server.rs lines
90–103): the config's command and args, with each `env` entry added via
`cmd.env(key, value)`. -/
def startServerSpawn (cfg : McpServerConfig) : SpawnRecord :=
  { command := cfg.command, args := cfg.args, envOverrides := cfg.env }

/-- The spawn whose child the transport returned by
`McpServerManager::get_client` communicates with, for a stdio config
(server.rs lines 153–159): after `start_server` spawns its own child, the
transport is built by `StdioTransport::new(&config.command, config.args)`,
which performs a second, separate spawn — the transport's channel partner. -/
def getClientTransportSpawn (cfg : McpServerConfig) : SpawnRecord :=
  stdioTransportSpawn cfg.command cfg.args

/-! ## Stdio transport reader task (`transport.rs`, `StdioTransport`)

`StdioTransport::new` (lines 66–160) creates
`let (message_tx, _message_rx) = mpsc::channel::<JsonRpcMessage>(100)` and
drops `_message_rx` when `new` returns, spawns the reader task, and each
`receive()` (lines 189–202) registers a oneshot sender with the reader and
waits on the oneshot with a 30 s timeout.

The reader task is modelled as a state machine driven by a sequence of
events (a `receive` registration arriving, a stdout line, a parse error,
EOF, the shutdown signal).  Waiting receivers are a stack (`Vec` with
`push`/`pop`).  Each receiver is identified by a number and its final
outcome is recorded. -/

/-- How one `receive()` call ends. -/
inductive RecvOutcome where
  /-- `tx.send(Ok(message))`: the oneshot resolves with the message. -/
  | delivered (m : JsonRpcMessage)
  /-- The oneshot sender was dropped: `rx` errors and `receive` maps it to
  `McpError::ConnectionClosed`. -/
  | connClosed
  /-- `receive_tx.send(tx)` failed because the reader task (owner of
  `receive_rx`) has exited: `receive` returns
  `McpError::TransportError("Failed to send receive request")`. -/
  | transpErr
  /-- Nothing resolved the oneshot within `TRANSPORT_TIMEOUT` (30 s):
  `receive` returns `McpError::TimeoutError`. -/
  | timeoutErr
  deriving Repr

/-- State of the stdio reader task together with the transport's channels. -/
structure StdioReaderState where
  /-- Oneshot senders of `receive()` calls the reader has accepted, most
  recent first (`receivers: Vec<...>` with `push`/`pop`). -/
  receivers : List Nat
  /-- Whether `_message_rx`, the receiving end of the buffer channel
  `message_tx`, is still alive.  It is dropped when `StdioTransport::new`
  returns, so in every reachable state this is `false`; it is a field so
  that the buffering branch of the source (line 117) can be written down. -/
  bufferRxAlive : Bool
  /-- Messages sitting in the buffer channel (never read by anyone). -/
  buffered : List JsonRpcMessage
  /-- Whether the reader loop is still running. -/
  readerAlive : Bool
  /-- Whether the child process has been killed (lines 147–159). -/
  childKilled : Bool
  /-- Resolved `receive()` outcomes, in resolution order. -/
  outcomes : List (Nat × RecvOutcome)
  deriving Repr

/-- Events driving the reader task. -/
inductive StdioEvent where
  /-- A `receive()` call: its oneshot sender reaches `receive_rx` and is
  pushed (when the reader still runs) or the send fails (when it exited). -/
  | recvCall (rid : Nat)
  /-- A stdout line that parses as a `JsonRpcMessage` (line 110). -/
  | stdoutLine (m : JsonRpcMessage)
  /-- A stdout line that fails to parse: logged and dropped (line 122). -/
  | stdoutParseErr
  /-- EOF on stdout (line 127). -/
  | stdoutEof
  /-- The `close()` shutdown signal (line 97). -/
  | shutdownSignal

/-- The transport state right after `StdioTransport::new` returns:
`_message_rx` has been dropped (line 66 binds it to a discarded `_`
binding), no receivers wait, the reader runs, the child lives. -/
def initStdioState : StdioReaderState :=
  { receivers := [], bufferRxAlive := false, buffered := [],
    readerAlive := true, childKilled := false, outcomes := [] }

/-- The reader loop exits: the `receivers` vector is dropped, so every
waiting oneshot resolves with `ConnectionClosed`, and the spawned blocking
task kills the child (lines 147–159). -/
def exitReader (s : StdioReaderState) : StdioReaderState :=
  { s with
    readerAlive := false
    childKilled := true
    receivers := []
    outcomes := s.outcomes ++ s.receivers.map (fun r => (r, RecvOutcome.connClosed)) }

/-- One step of the reader task (the `tokio::select!` body, lines 95–145),
plus the behaviour of `receive()`'s registration once the reader has
exited. -/
def stdioStep (s : StdioReaderState) (e : StdioEvent) : StdioReaderState :=
  if s.readerAlive then
    match e with
    | .recvCall rid => { s with receivers := rid :: s.receivers }
    | .stdoutLine m =>
      match s.receivers with
      | rid :: rest =>
        { s with
          receivers := rest
          outcomes := s.outcomes ++ [(rid, RecvOutcome.delivered m)] }
      | [] =>
        if s.bufferRxAlive then
          { s with buffered := s.buffered ++ [m] }
        else
          -- `message_tx.send(message).await.is_err()` holds because the
          -- receiver was dropped at construction, so the loop breaks.
          exitReader s
    | .stdoutParseErr => s
    | .stdoutEof => exitReader s
    | .shutdownSignal => exitReader s
  else
    match e with
    | .recvCall rid =>
      -- `receive_rx` was dropped with the reader task, so
      -- `receive_tx.send(tx)` fails.
      { s with outcomes := s.outcomes ++ [(rid, RecvOutcome.transpErr)] }
    | _ => s

/-- Run the reader over a sequence of events from a given state. -/
def runStdioFrom (s : StdioReaderState) (evs : List StdioEvent) : StdioReaderState :=
  evs.foldl stdioStep s

/-- Run the reader over a sequence of events from the post-construction
state. -/
def runStdio (evs : List StdioEvent) : StdioReaderState :=
  runStdioFrom initStdioState evs

/-- Outcome of the `receive()` call identified by `rid` once the events have
been processed: a recorded resolution if the reader produced one, otherwise
`TimeoutError` after 30 s for a receiver still waiting. -/
def receiveOutcome (s : StdioReaderState) (rid : Nat) : Option RecvOutcome :=
  match lookupKey rid s.outcomes with
  | some o => some o
  | none => if rid ∈ s.receivers then some RecvOutcome.timeoutErr else none

/-! ## Client initialize (`client.rs`, `McpClient::initialize`, lines 45–79) -/

/-- Rust `MCP_PROTOCOL_VERSION` from `types.rs`. -/
def MCP_PROTOCOL_VERSION : String := "0.1.0"

/-- Rust `ResourcesServerCapabilities` from `types.rs` (an empty struct). -/
structure ResourcesServerCapabilities where
  deriving Repr, DecidableEq

/-- Rust `ToolsServerCapabilities` from `types.rs` (an empty struct). -/
structure ToolsServerCapabilities where
  deriving Repr, DecidableEq

/-- Rust `PromptsServerCapabilities` from `types.rs` (an empty struct). -/
structure PromptsServerCapabilities where
  deriving Repr, DecidableEq

/-- Rust `SamplingServerCapabilities` from `types.rs` (an empty struct). -/
structure SamplingServerCapabilities where
  deriving Repr, DecidableEq

/-- Rust `ServerCapabilities` from `types.rs`. -/
structure ServerCapabilities where
  resources : Option ResourcesServerCapabilities
  tools : Option ToolsServerCapabilities
  prompts : Option PromptsServerCapabilities
  sampling : Option SamplingServerCapabilities
  deriving Repr, DecidableEq

/-- Rust `InitializeResult` from `types.rs`. -/
structure InitializeResult where
  protocol_version : String
  name : String
  version : String
  capabilities : ServerCapabilities
  deriving Repr, DecidableEq

/-- The outcomes the environment supplies to one `initialize()` invocation
that reaches the wire: `requestOutcome` is the combined outcome of
`send_request("initialize", …)` followed by
`serde_json::from_value::<InitializeResult>` (client.rs lines 69–72; a
malformed result surfaces as `ParseError`), and `notifyOutcome` is the
outcome of `send_notification("initialized", None)` (line 76). -/
structure InitOutcomes where
  requestOutcome : Except McpError InitializeResult
  notifyOutcome : Except McpError Unit
  deriving Repr

/-- What one `initialize()` invocation did. -/
structure InitTrace where
  /-- `server_info` after the call. -/
  server_info : Option InitializeResult
  /-- The call's return value. -/
  result : Except McpError InitializeResult
  /-- Whether an `initialize` request was sent on the wire. -/
  sentInitializeRequest : Bool
  deriving Repr

/-- Rust `McpClient::initialize` (client.rs lines 45–79) as a function of the
current `server_info` and the environment's outcomes: a cached result is
returned without any wire traffic (lines 47–52); otherwise the request is
sent, its parsed result is stored in `server_info` (line 73) *before* the
`initialized` notification is sent (line 76), whose failure propagates
through `?` after the store. -/
def clientInitialize (server_info : Option InitializeResult) (eff : InitOutcomes) : InitTrace :=
  match server_info with
  | some info =>
    { server_info := some info, result := .ok info, sentInitializeRequest := false }
  | none =>
    match eff.requestOutcome with
    | .error e =>
      { server_info := none, result := .error e, sentInitializeRequest := true }
    | .ok info =>
      match eff.notifyOutcome with
      | .error e =>
        { server_info := some info, result := .error e, sentInitializeRequest := true }
      | .ok _ =>
        { server_info := some info, result := .ok info, sentInitializeRequest := true }

/-! ## Request sending (`client.rs`, `McpClient::send_request`, lines 157–215)

The pending map is `HashMap<String, oneshot::Sender<…>>`; senders are
modelled as numeric handles.  What the 60 s wait on the oneshot receiver
produced is supplied as an oracle. -/

/-- Rust `REQUEST_TIMEOUT` (client.rs line 11), in seconds. -/
def REQUEST_TIMEOUT_SECS : Nat := 60

/-- Rust `TRANSPORT_TIMEOUT` (transport.rs line 21), in seconds. -/
def TRANSPORT_TIMEOUT_SECS : Nat := 30

/-- What `timeout(REQUEST_TIMEOUT, rx).await` produced. -/
inductive WaitOutcome where
  /-- The reader task resolved the oneshot with this value. -/
  | completed (r : Except McpError JsonRpcResponse)
  /-- The oneshot sender was dropped without sending. -/
  | channelDropped
  /-- 60 s elapsed with no resolution. -/
  | timedOut
  deriving Repr

/-- Result of one `send_request` call: the pending map after the call's own
map operations (the reader task's removals are modelled separately in
`handleResponse`), and the returned value.  The typed deserialization of the
`result` field is left at the `JsonValue` stage. -/
structure SendRequestResult where
  pending : List (String × Nat)
  result : Except McpError JsonValue
  deriving Repr

/-- Rust `McpClient::send_request` (client.rs lines 157–215) after the id has
been drawn: insert `(id, handle)` into `pending` (lines 175–180), send on
the transport (line 183, `?` propagates the error), then wait: on timeout
remove `id` from `pending` and fail with `TimeoutError` (lines 191–198); on
resolution surface `response.error` as `ProtocolError`, a missing `result`
as `ProtocolError`, else return the `result` value. -/
def sendRequest (pending : List (String × Nat)) (id : String) (handle : Nat)
    (sendOutcome : Except McpError Unit) (wait : WaitOutcome) : SendRequestResult :=
  let pending1 := insertKey id handle pending
  match sendOutcome with
  | .error e => { pending := pending1, result := .error e }
  | .ok _ =>
    match wait with
    | .timedOut =>
      { pending := removeKey id pending1, result := .error McpError.TimeoutError }
    | .channelDropped =>
      { pending := pending1
        result := .error (McpError.InternalError "Response channel closed") }
    | .completed (.error e) => { pending := pending1, result := .error e }
    | .completed (.ok resp) =>
      match resp.error with
      | some err =>
        { pending := pending1
          result := .error (McpError.ProtocolError
            ("Error " ++ toString err.code ++ ": " ++ err.message)) }
      | none =>
        match resp.result with
        | some v => { pending := pending1, result := .ok v }
        | none =>
          { pending := pending1
            result := .error (McpError.ProtocolError "Response missing result") }

/-! ## Reader task response handling
(`client.rs`, `McpClient::start_message_handler`, lines 242–270) -/

/-- Id normalization of the reader task (lines 244–251): a string id is
used as-is, a numeric id is rendered with `to_string`, anything else makes
the response be dropped with a warning. -/
def normalizeResponseId : JsonValue → Option String
  | .str s => some s
  | .num n => some (toString n)
  | _ => none

/-- What the reader task did with one `Response`. -/
inductive ReaderAction where
  /-- The pending entry was removed and the response sent on its handle. -/
  | deliveredOn (handle : Nat) (resp : JsonRpcResponse)
  /-- "Received response for unknown request ID": logged, dropped. -/
  | droppedUnknownId (id : String)
  /-- "Invalid response ID type": logged, dropped. -/
  | droppedInvalidId
  deriving Repr

/-- The reader task's handling of one `JsonRpcMessage::Response`
(client.rs lines 242–270): normalize the id, `pending.remove(&id)`, and
deliver on the removed sender when one existed. -/
def handleResponse (pending : List (String × Nat)) (resp : JsonRpcResponse) :
    List (String × Nat) × ReaderAction :=
  match normalizeResponseId resp.id with
  | none => (pending, ReaderAction.droppedInvalidId)
  | some id =>
    match lookupKey id pending with
    | some h => (removeKey id pending, ReaderAction.deliveredOn h resp)
    | none => (pending, ReaderAction.droppedUnknownId id)

/-! ## Request id generation (`client.rs`, `McpClient::next_id`, lines
153–155, and `McpClient::new`, line 31)

`next_id` is `AtomicU64::new(1)` and each call performs
`fetch_add(1, SeqCst).to_string()`: it renders the old counter value in
decimal and increments the counter, wrapping at `2^64`. -/

/-- The value `2^64`, the wrap-around modulus of `AtomicU64::fetch_add`. -/
def U64_LIMIT : Nat := 2 ^ 64

/-- One decimal digit character. -/
def digitChar : Nat → Char
  | 0 => '0' | 1 => '1' | 2 => '2' | 3 => '3' | 4 => '4'
  | 5 => '5' | 6 => '6' | 7 => '7' | 8 => '8' | 9 => '9'
  | _ => '*'

/-- Value of one decimal digit character. -/
def digitVal : Char → Nat
  | '1' => 1 | '2' => 2 | '3' => 3 | '4' => 4 | '5' => 5
  | '6' => 6 | '7' => 7 | '8' => 8 | '9' => 9
  | _ => 0

/-- Fuel-indexed digits of `n` in decimal, most significant first; with
`fuel > n` this is exactly the digit string of `u64::to_string`. -/
def decDigitsCore : Nat → Nat → List Char
  | 0, _ => []
  | fuel + 1, n =>
    if n < 10 then [digitChar n]
    else decDigitsCore fuel (n / 10) ++ [digitChar (n % 10)]

/-- Decimal rendering of a natural number (`u64::to_string`). -/
def decString (n : Nat) : String :=
  ⟨decDigitsCore (n + 1) n⟩

/-- Value of a decimal digit string, the inverse of `decDigitsCore`. -/
def decValue : List Char → Nat
  | [] => 0
  | c :: rest => digitVal c * 10 ^ rest.length + decValue rest

/-- The counter value after `k` calls of `next_id`, starting from
`AtomicU64::new(1)` (client.rs line 31) with wrapping `fetch_add(1)`. -/
def counterAfter : Nat → Nat
  | 0 => 1
  | k + 1 => (counterAfter k + 1) % U64_LIMIT

/-- The id string the `k`-th request of a session draws (`k ≥ 1`):
`fetch_add` returns the counter value before the `k`-th increment, rendered
in decimal (client.rs lines 153–155). -/
def requestId (k : Nat) : String :=
  decString (counterAfter (k - 1))

/-! ## Configuration persistence (`server.rs`, lines 228–273)

The manager's `servers : HashMap<String, McpServerConfig>` is the
association list `ConfigMap`.  A configuration file is modelled as the
key→config map its JSON object denotes; serialization skips the `process`
handle (`#[serde(skip)]`), so saved and parsed configs always carry
`process = None`. -/

/-- The manager's `servers` registry. -/
abbrev ConfigMap := List (String × McpServerConfig)

/-- Strip one registry entry to what serialization keeps (`process` is
skipped, everything else verbatim). -/
def savedEntry (p : String × McpServerConfig) : String × McpServerConfig :=
  (p.1, cloneConfig p.2)

/-- Rust `McpServerManager::save_to_file` (server.rs lines 242–247): serialize
the whole `servers` map, keyed by name, with `process` skipped. -/
def saveToFile (servers : ConfigMap) : ConfigMap :=
  servers.map savedEntry

/-- Rust `config.name = name.clone()` (server.rs line 234): the top-level key
overwrites the parsed config's inner `name` field. -/
def withKeyName (k : String) (c : McpServerConfig) : McpServerConfig :=
  { c with name := k }

/-- Rust `McpServerManager::load_from_file` (server.rs lines 228–239): for each
`(name, config)` pair of the parsed file, set `config.name = name` and
insert into `servers`.  Parsing yields `process = None`
(`#[serde(skip)]`), which `cloneConfig` expresses. -/
def loadFromFile (servers : ConfigMap) (file : ConfigMap) : ConfigMap :=
  file.foldl (fun acc p => insertKey p.1 (withKeyName p.1 (cloneConfig p.2)) acc) servers

/-- Rust `McpServerManager::get_servers` (server.rs lines 270–273): clone every
registered config; the clone drops the process handle. -/
def getServers (servers : ConfigMap) : List McpServerConfig :=
  servers.map (fun p => cloneConfig p.2)

/-- Rust `McpServerManager::save_default_config` (server.rs lines 260–267):
with `MCP_CONFIG_PATH` set, write the serialized map and succeed (the
file-system write is assumed to succeed in the model); with it unset, do
nothing and succeed.  Returns the written file, if any. -/
def saveDefaultConfig (envPath : Option String) (servers : ConfigMap) :
    Except String (Option ConfigMap) :=
  match envPath with
  | some _ => .ok (some (saveToFile servers))
  | none => .ok none

/-- Rust `McpServerManager::load_default_config` (server.rs lines 250–257): with
`MCP_CONFIG_PATH` set, read and parse the file (failing when it is absent)
and merge it into `servers`; with it unset, do nothing and succeed. -/
def loadDefaultConfig (envPath : Option String) (servers : ConfigMap)
    (file : Option ConfigMap) : Except String ConfigMap :=
  match envPath with
  | some _ =>
    match file with
    | some f => .ok (loadFromFile servers f)
    | none => .error "failed to read config file"
  | none => .ok servers

/-- Registry invariant: every entry's inner `name` equals its key.
`register_server` (server.rs line 53) and `load_from_file` (line 234)
only ever insert entries with this property. -/
def namesMatchKeys (servers : ConfigMap) : Prop :=
  ∀ p ∈ servers, p.2.name = p.1

/-- Registry invariant: keys are pairwise distinct (a `HashMap` holds one
entry per key). -/
def nodupKeys (servers : ConfigMap) : Prop :=
  List.Pairwise (fun p q => p.1 ≠ q.1) servers

/-! ## Concrete example values used by witnesses and counterexamples -/

/-- A well-formed response message. -/
def exResponse : JsonRpcResponse :=
  { jsonrpc := "2.0", id := JsonValue.str "1", result := some JsonValue.null,
    error := none }

/-- A well-formed inbound message. -/
def exResponseMsg : JsonRpcMessage := JsonRpcMessage.Response exResponse

/-- A well-formed inbound notification message. -/
def exNotificationMsg : JsonRpcMessage :=
  JsonRpcMessage.Notification { jsonrpc := "2.0", method := "ping", params := none }

/-- Close outcomes where the `shutdown` request times out and the later
steps would succeed if reached. -/
def closeShutdownTimesOut : CloseOutcomes :=
  { shutdownOutcome := .error McpError.TimeoutError
    exitOutcome := .ok ()
    transportCloseOutcome := .ok () }

/-- Close outcomes where every step succeeds. -/
def closeAllOk : CloseOutcomes :=
  { shutdownOutcome := .ok JsonValue.null
    exitOutcome := .ok ()
    transportCloseOutcome := .ok () }

/-- A plausible `InitializeResult` from a server. -/
def mockInitResult : InitializeResult :=
  { protocol_version := "0.1.0", name := "mock", version := "1"
    capabilities := { resources := none, tools := none, prompts := none, sampling := none } }

/-- Initialize outcomes where the request round-trip succeeds but sending
the `initialized` notification fails. -/
def initNotifyFails : InitOutcomes :=
  { requestOutcome := .ok mockInitResult
    notifyOutcome := .error (McpError.TransportError "send failed") }

/-- A registered SSE server config. -/
def cfgA : McpServerConfig :=
  { name := "a", command := "http://h/sse", args := [], env := [], process := none }

/-- A stdio server config with a non-empty `env` map. -/
def cfgStdio : McpServerConfig :=
  { name := "x", command := "srv", args := ["--port", "1"],
    env := [("KEY", "VALUE")], process := none }

/-! ## Behaviour of the stdio reader after it has exited -/

/-! ## Claim theorems -/

/-! ## Lemmas and claim theorems -/

theorem lookupKey_removeKey_self [DecidableEq κ] (k : κ) (l : List (κ × α)) :
    lookupKey k (removeKey k l) = none := by
  induction l with
  | nil => rfl
  | cons p rest ih =>
    obtain ⟨k', v'⟩ := p
    by_cases h : k' = k
    · simpa [removeKey, h] using ih
    · simpa [removeKey, h, lookupKey] using ih

theorem lookupKey_removeKey_ne [DecidableEq κ] (k j : κ) (l : List (κ × α)) (h : j ≠ k) :
    lookupKey j (removeKey k l) = lookupKey j l := by
  induction l with
  | nil => rfl
  | cons p rest ih =>
    obtain ⟨k', v'⟩ := p
    by_cases hk : k' = k
    · simp [removeKey, hk, lookupKey, Ne.symm h, ih]
    · by_cases hj : k' = j
      · simp [removeKey, hk, lookupKey, hj, h]
      · simp [removeKey, hk, lookupKey, hj, ih]

theorem lookupKey_insertKey_self [DecidableEq κ] (k : κ) (v : α) (l : List (κ × α)) :
    lookupKey k (insertKey k v l) = some v := by
  induction l with
  | nil => simp [insertKey, lookupKey]
  | cons p rest ih =>
    obtain ⟨k', v'⟩ := p
    by_cases hk : k' = k
    · simp [insertKey, hk, lookupKey]
    · simp [insertKey, hk, lookupKey, ih]

theorem lookupKey_insertKey_ne [DecidableEq κ] (k j : κ) (v : α) (l : List (κ × α)) (h : j ≠ k) :
    lookupKey j (insertKey k v l) = lookupKey j l := by
  induction l with
  | nil => simp [insertKey, lookupKey, Ne.symm h]
  | cons p rest ih =>
    obtain ⟨k', v'⟩ := p
    by_cases hk : k' = k
    · simp [insertKey, hk, lookupKey, Ne.symm h]
    · by_cases hj : k' = j
      · simp [insertKey, hk, lookupKey, hj, h]
      · simp [insertKey, hk, lookupKey, hj, ih]

theorem isPrefixOfB_append_self (xs ys : List Char) :
    isPrefixOfB xs (xs ++ ys) = true := by
  induction xs with
  | nil => rfl
  | cons a as ih => simp [isPrefixOfB, ih]

theorem endsWithB_append_self (pat v : List Char) :
    endsWithB pat (v ++ pat) = true := by
  simp only [endsWithB, List.reverse_append]
  exact isPrefixOfB_append_self pat.reverse v.reverse

theorem replaceCore_nil (pat rep : List Char) (fuel : Nat) :
    replaceCore pat rep fuel [] = [] := by
  cases fuel <;> rfl

/-- When `"/sse"` occurs nowhere in `v ++ "/sse"` before the final suffix,
`str::replace` rewrites exactly that suffix. -/
theorem replaceCore_sse_suffix (v : List Char) (fuel : Nat)
    (hfuel : v.length + 4 ≤ fuel)
    (hocc : ∀ i, i < v.length →
      isPrefixOfB sseChars (List.drop i (v ++ sseChars)) = false) :
    replaceCore sseChars messagesChars fuel (v ++ sseChars) = v ++ messagesChars := by
  induction v generalizing fuel with
  | nil =>
    obtain ⟨f, rfl⟩ : ∃ f, fuel = f + 1 := ⟨fuel - 1, by omega⟩
    show replaceCore sseChars messagesChars (f + 1) sseChars = messagesChars
    rw [show (sseChars = '/' :: ['s', 's', 'e']) from rfl]
    rw [replaceCore]
    rw [if_pos (by decide)]
    simp [replaceCore_nil]
  | cons c v' ih =>
    obtain ⟨f, rfl⟩ : ∃ f, fuel = f + 1 := ⟨fuel - 1, by omega⟩
    have h0 : isPrefixOfB sseChars (c :: (v' ++ sseChars)) = false := by
      have := hocc 0 (by simp)
      simpa using this
    show replaceCore sseChars messagesChars (f + 1) (c :: (v' ++ sseChars))
        = c :: (v' ++ messagesChars)
    rw [replaceCore, if_neg (by simp [h0])]
    congr 1
    apply ih
    · simp only [List.length_cons] at hfuel
      omega
    · intro i hi
      have := hocc (i + 1) (by simpa using Nat.succ_lt_succ hi)
      simpa using this

theorem digitVal_digitChar (d : Nat) (hd : d < 10) : digitVal (digitChar d) = d := by
  interval_cases d <;> rfl

theorem decValue_append_digit (xs : List Char) (c : Char) :
    decValue (xs ++ [c]) = 10 * decValue xs + digitVal c := by
  induction xs with
  | nil => simp [decValue]
  | cons a as ih =>
    simp only [List.cons_append, decValue, List.append_eq, ih, List.length_append,
      List.length_cons, List.length_nil]
    ring

theorem decValue_decDigitsCore (fuel n : Nat) (h : n < fuel) :
    decValue (decDigitsCore fuel n) = n := by
  induction fuel generalizing n with
  | zero => omega
  | succ fuel ih =>
    by_cases hn : n < 10
    · simp [decDigitsCore, hn, decValue, digitVal_digitChar n hn]
    · have hdiv : n / 10 < fuel := by
        have h1 : n / 10 < n := Nat.div_lt_self (by omega) (by omega)
        omega
      have hmod : n % 10 < 10 := Nat.mod_lt _ (by omega)
      simp only [decDigitsCore, hn, if_false, decValue_append_digit, ih _ hdiv,
        digitVal_digitChar _ hmod]
      omega

/-- Rust `u64::to_string` renderings of distinct values are distinct. -/
theorem decString_injective (m n : Nat) (h : decString m = decString n) : m = n := by
  have hdata : decDigitsCore (m + 1) m = decDigitsCore (n + 1) n :=
    congrArg String.data h
  have hm := decValue_decDigitsCore (m + 1) m (Nat.lt_succ_self m)
  have hn := decValue_decDigitsCore (n + 1) n (Nat.lt_succ_self n)
  rw [← hm, ← hn, hdata]

theorem counterAfter_eq (k : Nat) : counterAfter k = (k + 1) % U64_LIMIT := by
  induction k with
  | zero =>
    show (1 : Nat) = 1 % U64_LIMIT
    rw [Nat.mod_eq_of_lt]
    simp [U64_LIMIT]
  | succ k ih =>
    show (counterAfter k + 1) % U64_LIMIT = (k + 1 + 1) % U64_LIMIT
    rw [ih, Nat.mod_add_mod]

theorem requestId_eq (k : Nat) (hk : 1 ≤ k) : requestId k = decString (k % U64_LIMIT) := by
  unfold requestId
  rw [counterAfter_eq]
  have hk1 : k - 1 + 1 = k := by omega
  rw [hk1]

theorem cloneConfig_idem (c : McpServerConfig) :
    cloneConfig (cloneConfig c) = cloneConfig c := rfl

theorem withKeyName_cloneConfig_of_name (k : String) (c : McpServerConfig)
    (h : c.name = k) : withKeyName k (cloneConfig c) = cloneConfig c := by
  cases c
  simp only [cloneConfig, withKeyName] at *
  simp [h]

/-- Inserting at a key that occurs exactly once, before entries that do not
carry it, replaces that one entry in place. -/
theorem insertKey_middle (l1 : ConfigMap) (k : String) (x v : McpServerConfig)
    (l2 : ConfigMap) (h : ∀ p ∈ l1, p.1 ≠ k) :
    insertKey k v (l1 ++ (k, x) :: l2) = l1 ++ (k, v) :: l2 := by
  induction l1 with
  | nil => simp [insertKey]
  | cons q l1' ih =>
    have hq : q.1 ≠ k := h q (by simp)
    obtain ⟨qk, qv⟩ := q
    simp only [List.cons_append, insertKey, if_neg hq]
    exact congrArg (List.cons (qk, qv)) (ih (fun p hp => h p (by simp [hp])))

/-- Loading the file saved from a registry back into the same registry
leaves exactly the registry with process handles dropped. -/
theorem loadFromFile_saveToFile (todo done : ConfigMap)
    (hnodup : nodupKeys (done ++ todo)) (hnames : namesMatchKeys todo) :
    loadFromFile (done.map savedEntry ++ todo) (saveToFile todo)
      = (done ++ todo).map savedEntry := by
  induction todo generalizing done with
  | nil => simp [loadFromFile, saveToFile]
  | cons p todo' ih =>
    obtain ⟨k, c⟩ := p
    have hname : c.name = k := hnames (k, c) (by simp)
    have hdone : ∀ q ∈ done.map savedEntry, q.1 ≠ k := by
      intro q hq
      obtain ⟨q0, hq0, rfl⟩ := List.mem_map.mp hq
      have := (List.pairwise_append.mp hnodup).2.2 q0 hq0 (k, c) (by simp)
      simpa [savedEntry] using this
    show loadFromFile
        (insertKey k (withKeyName k (cloneConfig (cloneConfig c)))
          (done.map savedEntry ++ (k, c) :: todo')) (saveToFile todo')
      = (done ++ (k, c) :: todo').map savedEntry
    rw [cloneConfig_idem, withKeyName_cloneConfig_of_name k c hname,
      insertKey_middle _ _ _ _ _ hdone]
    have hacc : done.map savedEntry ++ (k, cloneConfig c) :: todo'
        = (done ++ [(k, c)]).map savedEntry ++ todo' := by
      simp [savedEntry]
    have hre : done ++ (k, c) :: todo' = (done ++ [(k, c)]) ++ todo' := by
      simp
    rw [hacc, hre]
    apply ih
    · rw [List.append_assoc]
      exact hnodup
    · intro p hp
      exact hnames p (by simp [hp])

/-- Rust `load_from_file` preserves the names-match-keys invariant whatever the
file's inner `name` fields say: the key takes precedence on load. -/
theorem namesMatchKeys_insertKey (s : ConfigMap) (k : String)
    (v : McpServerConfig) (hv : v.name = k) (hs : namesMatchKeys s) :
    namesMatchKeys (insertKey k v s) := by
  induction s with
  | nil =>
    intro p hp
    simp only [insertKey, List.mem_singleton] at hp
    simp [hp, hv]
  | cons q rest ih =>
    obtain ⟨qk, qv⟩ := q
    by_cases hq : qk = k
    · intro p hp
      simp only [insertKey, if_pos hq] at hp
      rcases List.mem_cons.mp hp with h1 | h2
      · simp [h1, hv]
      · exact hs p (by simp [h2])
    · intro p hp
      simp only [insertKey, if_neg hq] at hp
      rcases List.mem_cons.mp hp with h1 | h2
      · exact hs p (by simp [h1])
      · exact ih (fun r hr => hs r (by simp [hr])) p h2

theorem namesMatchKeys_loadFromFile (s : ConfigMap) (file : ConfigMap)
    (hs : namesMatchKeys s) : namesMatchKeys (loadFromFile s file) := by
  induction file generalizing s with
  | nil => exact hs
  | cons p file' ih =>
    exact ih _ (namesMatchKeys_insertKey s p.1 _ rfl hs)

/-- Once the reader task has exited, the state never changes again except
that later `receive()` registrations fail with the transport error of the
closed `receive_tx` channel. -/
theorem runStdioFrom_dead (evs : List StdioEvent) (s : StdioReaderState)
    (h : s.readerAlive = false) :
    ∃ extra : List (Nat × RecvOutcome),
      runStdioFrom s evs = { s with outcomes := s.outcomes ++ extra } ∧
      ∀ p ∈ extra, p.2 = RecvOutcome.transpErr := by
  induction evs generalizing s with
  | nil =>
    refine ⟨[], ?_, by simp⟩
    simp [runStdioFrom]
  | cons e evs' ih =>
    have hcons : runStdioFrom s (e :: evs') = runStdioFrom (stdioStep s e) evs' := rfl
    cases e with
    | recvCall rid =>
      have hstep : stdioStep s (StdioEvent.recvCall rid)
          = { s with outcomes := s.outcomes ++ [(rid, RecvOutcome.transpErr)] } := by
        simp [stdioStep, h]
      obtain ⟨extra, heq, hextra⟩ :=
        ih { s with outcomes := s.outcomes ++ [(rid, RecvOutcome.transpErr)] } h
      refine ⟨(rid, RecvOutcome.transpErr) :: extra, ?_, ?_⟩
      · rw [hcons, hstep, heq]
        simp
      · intro p hp
        rcases List.mem_cons.mp hp with h1 | h2
        · simp [h1]
        · exact hextra p h2
    | stdoutLine m =>
      rw [hcons, show stdioStep s (StdioEvent.stdoutLine m) = s by simp [stdioStep, h]]
      exact ih s h
    | stdoutParseErr =>
      rw [hcons, show stdioStep s StdioEvent.stdoutParseErr = s by simp [stdioStep, h]]
      exact ih s h
    | stdoutEof =>
      rw [hcons, show stdioStep s StdioEvent.stdoutEof = s by simp [stdioStep, h]]
      exact ih s h
    | shutdownSignal =>
      rw [hcons, show stdioStep s StdioEvent.shutdownSignal = s by simp [stdioStep, h]]
      exact ih s h

/-- C1, counterexample: when the `shutdown` request fails (here: times
out), `close()` does *not* attempt the `exit` notification or the transport
close, and it returns the error instead of completing successfully — the
claim that errors are discarded and the later steps still attempted is
false on the code. -/
theorem close_aborts_on_shutdown_error :
    (clientClose closeShutdownTimesOut).sentExit = false ∧
    (clientClose closeShutdownTimesOut).closedTransport = false ∧
    (clientClose closeShutdownTimesOut).result = .error McpError.TimeoutError :=
  ⟨rfl, rfl, rfl⟩

/-- C1 (amended): `close()` sends `shutdown`, then `exit`, then closes the
transport, but an error from any step is propagated by `?` and aborts
`close`: the `exit` notification is attempted exactly when `shutdown`
succeeded, the transport close exactly when `shutdown` and `exit` both
succeeded, and the first failing step's error becomes the return value. -/
theorem close_error_propagation (eff : CloseOutcomes) :
    (clientClose eff).sentShutdown = true ∧
    ((clientClose eff).sentExit = true ↔ ∃ v, eff.shutdownOutcome = .ok v) ∧
    ((clientClose eff).closedTransport = true ↔
      (∃ v, eff.shutdownOutcome = .ok v) ∧ eff.exitOutcome = .ok ()) ∧
    (∀ e, eff.shutdownOutcome = .error e → (clientClose eff).result = .error e) ∧
    (∀ v e, eff.shutdownOutcome = .ok v → eff.exitOutcome = .error e →
      (clientClose eff).result = .error e) ∧
    (∀ v, eff.shutdownOutcome = .ok v → eff.exitOutcome = .ok () →
      (clientClose eff).result = eff.transportCloseOutcome) := by
  obtain ⟨sh, ex, cl⟩ := eff
  cases sh with
  | error e => simp [clientClose]
  | ok v =>
    cases ex with
    | error e => simp [clientClose]
    | ok u => cases u; simp [clientClose]

/-- Witness for `close_error_propagation` at concrete outcomes: with all
three steps succeeding, `close` returns the transport close's result. -/
theorem close_error_propagation_witness :
    (clientClose closeAllOk).result = Except.ok () :=
  ((close_error_propagation closeAllOk).2.2.2.2.2 JsonValue.null rfl rfl).trans rfl

/-- C2, counterexample: for the base URL `"http://h/sse/sse"`, which ends
with `"/sse"`, the code's `replace` rewrites *every* occurrence and POSTs
to `"http://h/messages/messages"`, while the claim demands that only the
suffix occurrence be replaced, giving `"http://h/sse/messages"`. -/
theorem ssePostUrl_replaces_all_occurrences :
    ssePostUrl "http://h/sse/sse" = "http://h/messages/messages" ∧
    claimedPostUrl "http://h/sse/sse" = "http://h/sse/messages" ∧
    ssePostUrl "http://h/sse/sse" ≠ claimedPostUrl "http://h/sse/sse" :=
  ⟨rfl, rfl, by decide⟩

/-- C2 (amended): when the base URL ends with `"/sse"`, `send` POSTs to the
URL with every occurrence of `"/sse"` replaced by `"/messages"`; in
particular, when `"/sse"` occurs nowhere before the suffix, that is the URL
with just the suffix replaced.  A base URL not ending with `"/sse"` POSTs
to the URL with trailing slashes trimmed and `"/messages"` appended. -/
theorem ssePostUrl_endpoint_rule :
    (∀ v : List Char,
      (∀ i, i < v.length →
        isPrefixOfB sseChars (List.drop i (v ++ sseChars)) = false) →
      ssePostUrlData (v ++ sseChars) = v ++ messagesChars) ∧
    (∀ u : List Char, endsWithB sseChars u = false →
      ssePostUrlData u = trimEndSlashes u ++ messagesChars) := by
  constructor
  · intro v hocc
    unfold ssePostUrlData
    rw [if_pos (endsWithB_append_self sseChars v)]
    apply replaceCore_sse_suffix v _ _ hocc
    simp [sseChars]
  · intro u hu
    unfold ssePostUrlData
    rw [if_neg (by simp [hu])]

/-- Witness for `ssePostUrl_endpoint_rule` at concrete URLs. -/
theorem ssePostUrl_endpoint_rule_witness :
    ssePostUrlData ("http://h".data ++ sseChars) = "http://h".data ++ messagesChars ∧
    ssePostUrlData "http://h/".data = trimEndSlashes "http://h/".data ++ messagesChars :=
  ⟨ssePostUrl_endpoint_rule.1 "http://h".data (by decide),
   ssePostUrl_endpoint_rule.2 "http://h/".data (by decide)⟩

/-- C3: for a stdio config with a non-empty `env` map, the child that the
transport obtained through `get_client` communicates with is the one
spawned by `StdioTransport::new(&config.command, config.args)`, which
applies *no* environment overrides; only the separate child spawned by
`start_server` — to which the transport is never connected — receives the
config's `env` entries.  Evaluated at the concrete failing config. -/
theorem getClientTransportSpawn_drops_env :
    cfgStdio.env ≠ [] ∧
    getClientTransportSpawn cfgStdio
      = { command := "srv", args := ["--port", "1"], envOverrides := [] } ∧
    startServerSpawn cfgStdio
      = { command := "srv", args := ["--port", "1"],
          envOverrides := [("KEY", "VALUE")] } :=
  ⟨by decide, rfl, rfl⟩

/-- C4: a well-formed message that arrives before any `receive()` call is
*not* delivered to the next `receive()`.  The reader's buffering branch
sends it on `message_tx`, whose receiver `_message_rx` was dropped when
`StdioTransport::new` returned; the failed send breaks the reader loop,
kills the child, and the next `receive()` fails instead of returning the
message — contradicting the code's own "Buffer the message if no one is
waiting" intent.  Evaluated at the concrete failing trace: one message on
stdout, then one `receive()`. -/
theorem stdio_early_message_lost :
    (runStdio [StdioEvent.stdoutLine exResponseMsg, StdioEvent.recvCall 0]).readerAlive
        = false ∧
    (runStdio [StdioEvent.stdoutLine exResponseMsg, StdioEvent.recvCall 0]).childKilled
        = true ∧
    (runStdio [StdioEvent.stdoutLine exResponseMsg, StdioEvent.recvCall 0]).buffered
        = [] ∧
    (runStdio [StdioEvent.stdoutLine exResponseMsg, StdioEvent.recvCall 0]).outcomes
        = [(0, RecvOutcome.transpErr)] ∧
    receiveOutcome (runStdio [StdioEvent.stdoutLine exResponseMsg, StdioEvent.recvCall 0]) 0
        = some RecvOutcome.transpErr :=
  ⟨rfl, rfl, rfl, rfl, rfl⟩

/-- C5, counterexample: with a transport whose `initialize` round trip
succeeds but whose `initialized` notification send fails, `initialize()`
returns an error yet `server_info` has become set — so `server_info` is not
set "only on a successful initialize". -/
theorem initialize_sets_info_despite_failure :
    (clientInitialize none initNotifyFails).server_info = some mockInitResult ∧
    (clientInitialize none initNotifyFails).result
      = .error (McpError.TransportError "send failed") :=
  ⟨rfl, rfl⟩

/-- C5 (amended): `initialize()` is idempotent — with `server_info` already
set, it returns the cached result without sending anything — and
`server_info` goes from unset to set exactly on the first call whose
`initialize` request round-trip succeeds and parses, even when that call
then fails sending the `initialized` notification; once set it never
changes. -/
theorem initialize_idempotent_set_once (eff : InitOutcomes) :
    (∀ info, clientInitialize (some info) eff
      = { server_info := some info, result := .ok info,
          sentInitializeRequest := false }) ∧
    (∀ i, (clientInitialize none eff).server_info = some i ↔
      eff.requestOutcome = .ok i) ∧
    (∀ st, st ≠ none → (clientInitialize st eff).server_info = st) := by
  obtain ⟨req, nfy⟩ := eff
  refine ⟨fun info => rfl, ?_, ?_⟩
  · intro i
    cases req with
    | error e =>
      simp [clientInitialize]
    | ok info =>
      cases nfy with
      | error e => simp [clientInitialize]
      | ok u => cases u; simp [clientInitialize]
  · intro st hst
    cases st with
    | none => exact absurd rfl hst
    | some info => rfl

/-- Witness for `initialize_idempotent_set_once` at concrete outcomes. -/
theorem initialize_idempotent_set_once_witness :
    clientInitialize (some mockInitResult) initNotifyFails
      = { server_info := some mockInitResult, result := .ok mockInitResult,
          sentInitializeRequest := false } ∧
    (clientInitialize none initNotifyFails).server_info = some mockInitResult :=
  ⟨(initialize_idempotent_set_once initNotifyFails).1 mockInitResult,
   ((initialize_idempotent_set_once initNotifyFails).2.1 mockInitResult).mpr rfl⟩

/-- C6: when the 60 s `REQUEST_TIMEOUT` elapses without a response, the
request fails with `TimeoutError` and its id is removed from `pending`, so
no entry with that id remains. -/
theorem sendRequest_timeout_removes_id
    (pending : List (String × Nat)) (id : String) (handle : Nat) :
    (sendRequest pending id handle (.ok ()) WaitOutcome.timedOut).result
        = .error McpError.TimeoutError ∧
    lookupKey id (sendRequest pending id handle (.ok ()) WaitOutcome.timedOut).pending
        = none ∧
    REQUEST_TIMEOUT_SECS = 60 := by
  refine ⟨rfl, ?_, rfl⟩
  exact lookupKey_removeKey_self id (insertKey id handle pending)

/-- Witness for `sendRequest_timeout_removes_id` at a concrete pending map
and id. -/
theorem sendRequest_timeout_removes_id_witness :
    (sendRequest [("7", 70)] "9" 99 (.ok ()) WaitOutcome.timedOut).result
        = .error McpError.TimeoutError ∧
    lookupKey "9" (sendRequest [("7", 70)] "9" 99 (.ok ()) WaitOutcome.timedOut).pending
        = none :=
  ⟨(sendRequest_timeout_removes_id [("7", 70)] "9" 99).1,
   (sendRequest_timeout_removes_id [("7", 70)] "9" 99).2.1⟩

/-- C7: the reader task normalizes a response's string or numeric id to a
string key; when `pending` holds an entry for that key, exactly that entry
is removed and the response delivered on its handle, every other key being
untouched; when no entry matches, the response is dropped and `pending` is
returned unchanged; a non-string, non-numeric id drops the response with
`pending` unchanged. -/
theorem handleResponse_correlation
    (pending : List (String × Nat)) (resp : JsonRpcResponse) :
    (∀ s, resp.id = JsonValue.str s → normalizeResponseId resp.id = some s) ∧
    (∀ n, resp.id = JsonValue.num n →
      normalizeResponseId resp.id = some (toString n)) ∧
    (∀ id h, normalizeResponseId resp.id = some id → lookupKey id pending = some h →
      (handleResponse pending resp).2 = ReaderAction.deliveredOn h resp ∧
      lookupKey id (handleResponse pending resp).1 = none ∧
      (∀ j, j ≠ id →
        lookupKey j (handleResponse pending resp).1 = lookupKey j pending)) ∧
    (∀ id, normalizeResponseId resp.id = some id → lookupKey id pending = none →
      handleResponse pending resp = (pending, ReaderAction.droppedUnknownId id)) ∧
    (normalizeResponseId resp.id = none →
      handleResponse pending resp = (pending, ReaderAction.droppedInvalidId)) := by
  refine ⟨?_, ?_, ?_, ?_, ?_⟩
  · intro s hs
    rw [hs]
    rfl
  · intro n hn
    rw [hn]
    rfl
  · intro id h hnorm hlook
    have hh : handleResponse pending resp
        = (removeKey id pending, ReaderAction.deliveredOn h resp) := by
      simp only [handleResponse, hnorm, hlook]
    refine ⟨by rw [hh], ?_, ?_⟩
    · rw [hh]
      exact lookupKey_removeKey_self id pending
    · intro j hj
      rw [hh]
      exact lookupKey_removeKey_ne id j pending hj
  · intro id hnorm hlook
    simp only [handleResponse, hnorm, hlook]
  · intro hnorm
    simp only [handleResponse, hnorm]

/-- Witness for `handleResponse_correlation`: a response with string id
`"1"` against a pending map holding `"1"` and `"2"` removes exactly the
`"1"` entry and delivers on its handle. -/
theorem handleResponse_correlation_witness :
    (handleResponse [("1", 10), ("2", 20)] exResponse).2
        = ReaderAction.deliveredOn 10 exResponse ∧
    lookupKey "1" (handleResponse [("1", 10), ("2", 20)] exResponse).1 = none ∧
    lookupKey "2" (handleResponse [("1", 10), ("2", 20)] exResponse).1
        = lookupKey "2" [("1", 10), ("2", 20)] :=
  have h := (handleResponse_correlation [("1", 10), ("2", 20)] exResponse).2.2.1
    "1" 10 rfl rfl
  ⟨h.1, h.2.1, h.2.2 "2" (by decide)⟩

/-- C8, counterexample: `next_id` is a wrapping 64-bit counter, so the
`(2^64 + 1)`-th request of a session draws the same id `"1"` as the first
request — the claim that no id is ever reused within a session is false in
the limit. -/
theorem requestId_reused_after_wrap :
    requestId 1 = requestId (U64_LIMIT + 1) ∧ (1 : Nat) ≠ U64_LIMIT + 1 := by
  constructor
  · rw [requestId_eq 1 (by norm_num), requestId_eq (U64_LIMIT + 1) (by omega)]
    congr 1
  · have : (1 : Nat) < U64_LIMIT := by norm_num [U64_LIMIT]
    omega

/-- C8 (amended): the ids of successive requests are the decimal
renderings of the wrapping counter values `k mod 2^64`; within the first
`2^64 − 1` requests of a session they are the decimal renderings of the
strictly increasing sequence `1, 2, 3, …` and no id is reused, even after
an error or timeout (nothing ever decrements or resets the counter); the
counter wraps at `2^64`, after which ids repeat. -/
theorem requestId_monotone_before_wrap :
    (∀ k, 1 ≤ k → k < U64_LIMIT → requestId k = decString k) ∧
    (∀ j k, 1 ≤ j → j < k → k < U64_LIMIT → requestId j ≠ requestId k) ∧
    requestId 1 = "1" := by
  have h1 : ∀ k, 1 ≤ k → k < U64_LIMIT → requestId k = decString k := by
    intro k hk1 hk2
    rw [requestId_eq k hk1, Nat.mod_eq_of_lt hk2]
  refine ⟨h1, ?_, ?_⟩
  · intro j k hj hjk hk hcontra
    rw [h1 j hj (lt_trans hjk hk), h1 k (by omega) hk] at hcontra
    exact absurd (decString_injective j k hcontra) (by omega)
  · rfl

/-- Witness for `requestId_monotone_before_wrap` at the first two ids. -/
theorem requestId_monotone_before_wrap_witness :
    requestId 1 = decString 1 ∧ requestId 1 ≠ requestId 2 :=
  ⟨requestId_monotone_before_wrap.1 1 (by norm_num) (by norm_num [U64_LIMIT]),
   requestId_monotone_before_wrap.2.1 1 2 (by norm_num) (by norm_num)
     (by norm_num [U64_LIMIT])⟩

/-- C9: `save_default_config` followed by `load_default_config` on the
same manager leaves `get_servers()` returning the same multiset of configs
(process handles are dropped by both serialization and `get_servers`'s
clone); with `MCP_CONFIG_PATH` unset both operations are successful
no-ops; and on load the top-level key overwrites the inner `name` field,
so the names-match-keys invariant holds after loading any file. -/
theorem config_persistence_roundtrip (s : ConfigMap) (path : String)
    (file : Option ConfigMap) (hnodup : nodupKeys s) (hnames : namesMatchKeys s) :
    (∀ saved, saveDefaultConfig (some path) s = .ok (some saved) →
      loadDefaultConfig (some path) s (some saved) = .ok (loadFromFile s saved) ∧
      (getServers (loadFromFile s saved)).Perm (getServers s)) ∧
    (saveDefaultConfig none s = .ok none ∧
      loadDefaultConfig none s file = .ok s) ∧
    (∀ f : ConfigMap, namesMatchKeys (loadFromFile s f)) := by
  refine ⟨?_, ⟨rfl, rfl⟩, fun f => namesMatchKeys_loadFromFile s f hnames⟩
  intro saved hsaved
  have hsv : saveToFile s = saved := by
    have h1 : Except.ok (ε := String) (some (saveToFile s))
        = Except.ok (some saved) := hsaved
    injection h1 with h2
    injection h2
  subst hsv
  refine ⟨rfl, ?_⟩
  have hload : loadFromFile s (saveToFile s) = s.map savedEntry := by
    have := loadFromFile_saveToFile s [] (by simpa [nodupKeys] using hnodup) hnames
    simpa using this
  rw [hload]
  have : getServers (s.map savedEntry) = getServers s := by
    unfold getServers
    rw [List.map_map]
    rfl
  rw [this]

/-- Witness for `config_persistence_roundtrip` on a one-entry registry. -/
theorem config_persistence_roundtrip_witness :
    (getServers (loadFromFile [("a", cfgA)] (saveToFile [("a", cfgA)]))).Perm
        (getServers [("a", cfgA)]) ∧
    loadDefaultConfig none [("a", cfgA)] none = .ok [("a", cfgA)] :=
  have h := config_persistence_roundtrip [("a", cfgA)] "/tmp/mcp.json" none
    (by simp [nodupKeys]) (by intro p hp; simp at hp; rw [hp]; rfl)
  ⟨(h.1 (saveToFile [("a", cfgA)]) rfl).2, h.2.1.2⟩

/-- C10, counterexample: after a well-formed message arrives with no
`receive()` pending, a subsequent `receive()` fails with
`TransportError("Failed to send receive request")` — because `receive_rx`
died with the reader task — which is neither `ConnectionClosed` nor
`TimeoutError` as the claim states. -/
theorem stdio_receive_after_loss_gets_transport_error :
    receiveOutcome
        (runStdio [StdioEvent.stdoutLine exNotificationMsg, StdioEvent.recvCall 7]) 7
      = some RecvOutcome.transpErr ∧
    RecvOutcome.transpErr ≠ RecvOutcome.connClosed ∧
    RecvOutcome.transpErr ≠ RecvOutcome.timeoutErr :=
  ⟨rfl, fun h => RecvOutcome.noConfusion h, fun h => RecvOutcome.noConfusion h⟩

/-- C10 (amended): when a well-formed message is parsed from the child's
stdout while no `receive()` is waiting, the reader attempts to buffer it on
`message_tx`, whose receiver was dropped at construction; the failed send
exits the reader loop, the child is killed, nothing is ever buffered or
delivered, and — whatever happens afterwards — every subsequent
`receive()` fails with `TransportError` (its registration cannot reach the
dead reader) rather than returning a message. -/
theorem stdio_unsolicited_message_kills_reader
    (m : JsonRpcMessage) (evs : List StdioEvent) :
    (runStdio (StdioEvent.stdoutLine m :: evs)).readerAlive = false ∧
    (runStdio (StdioEvent.stdoutLine m :: evs)).childKilled = true ∧
    (runStdio (StdioEvent.stdoutLine m :: evs)).buffered = [] ∧
    (runStdio (StdioEvent.stdoutLine m :: evs)).receivers = [] ∧
    ∀ p ∈ (runStdio (StdioEvent.stdoutLine m :: evs)).outcomes,
      p.2 = RecvOutcome.transpErr := by
  have hstep : stdioStep initStdioState (StdioEvent.stdoutLine m)
      = { receivers := [], bufferRxAlive := false, buffered := [],
          readerAlive := false, childKilled := true, outcomes := [] } := rfl
  have hrun : runStdio (StdioEvent.stdoutLine m :: evs)
      = runStdioFrom (stdioStep initStdioState (StdioEvent.stdoutLine m)) evs := rfl
  obtain ⟨extra, heq, hextra⟩ := runStdioFrom_dead evs
    { receivers := [], bufferRxAlive := false, buffered := [],
      readerAlive := false, childKilled := true, outcomes := [] } rfl
  rw [hrun, hstep, heq]
  exact ⟨rfl, rfl, rfl, rfl, fun p hp => hextra p (by simpa using hp)⟩

/-- Witness for `stdio_unsolicited_message_kills_reader` on a concrete
trace with two later `receive()` calls. -/
theorem stdio_unsolicited_message_kills_reader_witness :
    (runStdio [StdioEvent.stdoutLine exResponseMsg, StdioEvent.recvCall 1,
        StdioEvent.recvCall 2]).childKilled = true ∧
    (1, RecvOutcome.transpErr).2 = RecvOutcome.transpErr :=
  ⟨(stdio_unsolicited_message_kills_reader exResponseMsg
      [StdioEvent.recvCall 1, StdioEvent.recvCall 2]).2.1,
   (stdio_unsolicited_message_kills_reader exResponseMsg
      [StdioEvent.recvCall 1, StdioEvent.recvCall 2]).2.2.2.2
      (1, RecvOutcome.transpErr) (List.mem_cons_self _ _)⟩

end MlFace
